import Mathlib

/-!
Shallow embedding of the rssp feed processor (src/main.go) in Lean 4,
together with theorems checking the natural-language specification
against the code.  Go strings are modelled as lists of characters
(`GoStr`); Go's `map[string]bool` tracking set is modelled as a list of
identities with decidable membership; network and parsing effects are
modelled by explicit outcome types.
-/

namespace Rssp

/-- Go strings, modelled as sequences of characters. -/
abbrev GoStr := List Char

/-- Item structure from main.go: one `<item>` of an RSS channel. -/
structure Item where
  title : GoStr
  link : GoStr
  description : GoStr
  pubDate : GoStr
  guid : GoStr
deriving DecidableEq, Repr

/-- Channel structure from main.go. -/
structure Channel where
  title : GoStr
  link : GoStr
  description : GoStr
  items : List Item
deriving DecidableEq, Repr

/-- RSS structure from main.go: the root document. -/
structure RSS where
  channel : Channel
deriving DecidableEq, Repr

/-- getItemID (main.go lines 403-408): the deduplication identity of an
item is its guid when non-empty, otherwise its link. -/
def getItemID (item : Item) : GoStr :=
  if item.guid ≠ [] then item.guid else item.link

/-- Outcome of XML unmarshalling of the downloaded body
(parseFeed, main.go lines 438-454). -/
inductive ParseOutcome where
  | malformed
  | wellFormed (rss : RSS)
deriving DecidableEq

/-- Outcome of reading the HTTP response body (io.ReadAll in fetchFeed). -/
inductive BodyOutcome where
  | readFailed
  | content (parse : ParseOutcome)
deriving DecidableEq

/-- Outcome of the HTTP GET issued by fetchFeed (main.go lines 410-436):
either the transport fails, or a response with a status code arrives and
its body either fails to read or parses as in `ParseOutcome`. -/
inductive HTTPResult where
  | transportError (msg : GoStr)
  | response (statusCode : Nat) (body : BodyOutcome)
deriving DecidableEq

/-- fetchFeed (main.go lines 410-436): transport errors, non-200 status
codes, body read failures and XML parse failures all surface as errors;
otherwise the parsed RSS document is returned. -/
def fetchFeed : HTTPResult → Except GoStr RSS
  | .transportError msg => .error ("HTTP request failed: ".toList ++ msg)
  | .response statusCode body =>
    if statusCode ≠ 200 then .error "HTTP error".toList
    else
      match body with
      | .readFailed => .error "failed to read response body".toList
      | .content .malformed => .error "XML parsing failed".toList
      | .content (.wellFormed rss) => .ok rss

/-- The reconciliation loop of pollFeed (main.go lines 373-387): iterate
the document's items in order; for each item compute its identity; if
the identity is not yet tracked, mark it tracked and, unless this is the
first run, emit the item.  Returns the new tracking state and the list
of emitted items in document order. -/
def reconcile (firstRun : Bool) (seen : List GoStr) : List Item → List GoStr × List Item
  | [] => (seen, [])
  | item :: rest =>
    let id := getItemID item
    if id ∈ seen then reconcile firstRun seen rest
    else
      let r := reconcile firstRun (id :: seen) rest
      if firstRun then r else (r.1, item :: r.2)

/-- Result of one iteration of pollFeed's infinite loop. -/
structure CycleResult where
  seen : List GoStr
  firstRun : Bool
  emitted : List Item
  sleepSeconds : Nat
deriving DecidableEq

/-- One iteration of pollFeed's loop (main.go lines 357-401): on a fetch
or parse error the state is untouched, nothing is emitted and the poller
sleeps 30 seconds (`continue` skips the `firstRun = false` assignment);
on success the items are reconciled, `firstRun` becomes false, and the
poller sleeps 30 seconds. -/
def pollStep (firstRun : Bool) (seen : List GoStr) (f : HTTPResult) : CycleResult :=
  match fetchFeed f with
  | .error _ => { seen := seen, firstRun := firstRun, emitted := [], sleepSeconds := 30 }
  | .ok feed =>
    let r := reconcile firstRun seen feed.channel.items
    { seen := r.1, firstRun := false, emitted := r.2, sleepSeconds := 30 }

/-- The poller's infinite loop, restricted to a finite trace of fetch
results: for each cycle's fetch result, the list of items emitted in
that cycle.  The loop never terminates on its own; a trace step always
yields a successor state for the next cycle. -/
def pollRun (firstRun : Bool) (seen : List GoStr) : List HTTPResult → List (List Item)
  | [] => []
  | f :: rest =>
    let r := pollStep firstRun seen f
    r.emitted :: pollRun r.firstRun r.seen rest

theorem reconcile_seen_mono (b : Bool) (items : List Item) :
    ∀ seen : List GoStr, ∀ s ∈ seen, s ∈ (reconcile b seen items).1 := by
  induction items with
  | nil => intro seen s hs; simpa [reconcile] using hs
  | cons item rest ih =>
    intro seen s hs
    simp only [reconcile]
    split
    · exact ih seen s hs
    · have h2 : s ∈ getItemID item :: seen := List.mem_cons_of_mem _ hs
      have := ih (getItemID item :: seen) s h2
      cases b <;> simpa using this

theorem reconcile_tracks (b : Bool) (items : List Item) :
    ∀ seen : List GoStr, ∀ item ∈ items, getItemID item ∈ (reconcile b seen items).1 := by
  induction items with
  | nil => intro seen item h; simp at h
  | cons hd rest ih =>
    intro seen item h
    simp only [reconcile]
    rcases List.mem_cons.mp h with he | ht
    · subst he
      split
      · exact reconcile_seen_mono b rest seen _ (by assumption)
      · have hm : getItemID item ∈ getItemID item :: seen := List.mem_cons_self _ _
        have := reconcile_seen_mono b rest (getItemID item :: seen) _ hm
        cases b <;> simpa using this
    · split
      · exact ih seen item ht
      · have := ih (getItemID hd :: seen) item ht
        cases b <;> simpa using this

theorem reconcile_fresh (b : Bool) (items : List Item) :
    ∀ seen : List GoStr, ∀ i ∈ (reconcile b seen items).2, getItemID i ∉ seen := by
  induction items with
  | nil => intro seen i hi; simp [reconcile] at hi
  | cons hd rest ih =>
    intro seen i hi
    simp only [reconcile] at hi
    by_cases hmem : getItemID hd ∈ seen
    · rw [if_pos hmem] at hi
      exact ih seen i hi
    · rw [if_neg hmem] at hi
      cases b with
      | true =>
        simp only [if_true] at hi
        have := ih (getItemID hd :: seen) i hi
        exact fun hc => this (List.mem_cons_of_mem _ hc)
      | false =>
        simp only [Bool.false_eq_true, if_false] at hi
        rcases List.mem_cons.mp hi with he | ht
        · subst he; exact hmem
        · have := ih (getItemID hd :: seen) i ht
          exact fun hc => this (List.mem_cons_of_mem _ hc)

theorem reconcile_first_run (items : List Item) :
    ∀ seen : List GoStr, (reconcile true seen items).2 = [] := by
  induction items with
  | nil => intro seen; simp [reconcile]
  | cons hd rest ih =>
    intro seen
    simp only [reconcile]
    split
    · exact ih seen
    · simpa using ih (getItemID hd :: seen)

theorem reconcile_all_seen (b : Bool) (items : List Item) :
    ∀ seen : List GoStr, (∀ item ∈ items, getItemID item ∈ seen) →
      (reconcile b seen items).2 = [] := by
  induction items with
  | nil => intro seen _; simp [reconcile]
  | cons hd rest ih =>
    intro seen h
    have hhd : getItemID hd ∈ seen := h hd (List.mem_cons_self _ _)
    simp only [reconcile, if_pos hhd]
    exact ih seen (fun item ht => h item (List.mem_cons_of_mem _ ht))

theorem reconcile_emitted_nodup (b : Bool) (items : List Item) :
    ∀ seen : List GoStr, ((reconcile b seen items).2.map getItemID).Nodup := by
  induction items with
  | nil => intro seen; simp [reconcile]
  | cons hd rest ih =>
    intro seen
    simp only [reconcile]
    by_cases hmem : getItemID hd ∈ seen
    · rw [if_pos hmem]; exact ih seen
    · rw [if_neg hmem]
      cases b with
      | true => simpa using ih (getItemID hd :: seen)
      | false =>
        simp only [Bool.false_eq_true, if_false, List.map_cons, List.nodup_cons]
        refine ⟨?_, ih (getItemID hd :: seen)⟩
        intro hc
        rcases List.mem_map.mp hc with ⟨i, hi, hid⟩
        have := reconcile_fresh false rest (getItemID hd :: seen) i hi
        exact this (hid ▸ List.mem_cons_self _ _)

/-- Sample concrete data used to instantiate hypothesis-bearing theorems. -/
def sampleItem : Item :=
  { title := "hello".toList, link := "http://example.com/1".toList,
    description := [], pubDate := [], guid := "g1".toList }

/-- A second sample item sharing the first item's link but with another guid. -/
def sampleItem2 : Item :=
  { title := "world".toList, link := "http://example.com/1".toList,
    description := [], pubDate := [], guid := "g2".toList }

/-- A sample item with an empty guid. -/
def sampleItem3 : Item :=
  { title := "third".toList, link := "http://example.com/3".toList,
    description := [], pubDate := [], guid := [] }

/-- A sample parsed document holding the three sample items. -/
def sampleRSS : RSS :=
  { channel := { title := "Example Feed".toList, link := [], description := [],
                 items := [sampleItem, sampleItem2, sampleItem3] } }

/-- A fetch result that succeeds and parses into `sampleRSS`. -/
def sampleFetch : HTTPResult := .response 200 (.content (.wellFormed sampleRSS))

/-- C1: the first successful fetch-parse cycle emits nothing, whatever
the document contains, and afterwards the identity of every item of the
document is in the tracking state. -/
theorem first_cycle_seeds_and_emits_nothing (seen : List GoStr) (f : HTTPResult) (rss : RSS)
    (h : fetchFeed f = .ok rss) :
    (pollStep true seen f).emitted = [] ∧
    ∀ item ∈ rss.channel.items, getItemID item ∈ (pollStep true seen f).seen := by
  simp only [pollStep, h]
  exact ⟨reconcile_first_run _ seen, fun item hm => reconcile_tracks true _ seen item hm⟩

theorem first_cycle_seeds_and_emits_nothing_witness :
    (pollStep true [] sampleFetch).emitted = [] ∧
    ∀ item ∈ sampleRSS.channel.items, getItemID item ∈ (pollStep true [] sampleFetch).seen :=
  first_cycle_seeds_and_emits_nothing [] sampleFetch sampleRSS rfl

/-- C2: the identity function is a pure function equal to the guid when
the guid is non-empty and to the link otherwise; hence two items with
distinct non-empty guids have distinct identities (their links may be
equal), and an item with an empty guid has its link as identity. -/
theorem getItemID_guid_else_link (a b c : Item)
    (ha : a.guid ≠ []) (hb : b.guid ≠ []) (hab : a.guid ≠ b.guid) (hc : c.guid = []) :
    getItemID a = a.guid ∧ getItemID b = b.guid ∧
    getItemID a ≠ getItemID b ∧ getItemID c = c.link := by
  refine ⟨by simp [getItemID, ha], by simp [getItemID, hb], ?_, by simp [getItemID, hc]⟩
  simp only [getItemID, if_pos ha, if_pos hb]
  exact hab

theorem getItemID_guid_else_link_witness :
    getItemID sampleItem = "g1".toList ∧ getItemID sampleItem2 = "g2".toList ∧
    getItemID sampleItem ≠ getItemID sampleItem2 ∧
    getItemID sampleItem3 = "http://example.com/3".toList := by
  have h := getItemID_guid_else_link sampleItem sampleItem2 sampleItem3
    (by decide) (by decide) (by decide) (by decide)
  exact ⟨h.1, h.2.1, h.2.2.1, h.2.2.2⟩

/-- C3: identities already in the tracking state are never emitted again
(no emitted item of any cycle carries a tracked identity, and tracked
identities persist across a cycle), and a second cycle over a document
identical to the previous cycle's document emits nothing. -/
theorem tracked_identity_never_reemitted (b : Bool) (seen : List GoStr)
    (f : HTTPResult) (rss : RSS) (h : fetchFeed f = .ok rss) :
    (∀ i ∈ (pollStep b seen f).emitted, getItemID i ∉ seen) ∧
    (∀ s ∈ seen, s ∈ (pollStep b seen f).seen) ∧
    (pollStep false (pollStep b seen f).seen f).emitted = [] := by
  simp only [pollStep, h]
  refine ⟨fun i hi => reconcile_fresh b _ seen i hi,
          fun s hs => reconcile_seen_mono b _ seen s hs, ?_⟩
  exact reconcile_all_seen false _ _ (fun item hm => reconcile_tracks b _ seen item hm)

theorem tracked_identity_never_reemitted_witness :
    (∀ i ∈ (pollStep true [] sampleFetch).emitted, getItemID i ∉ ([] : List GoStr)) ∧
    (∀ s ∈ ([] : List GoStr), s ∈ (pollStep true [] sampleFetch).seen) ∧
    (pollStep false (pollStep true [] sampleFetch).seen sampleFetch).emitted = [] :=
  tracked_identity_never_reemitted true [] sampleFetch sampleRSS rfl

/-- C9: a cycle whose fetch fails with a transport error or a non-2xx
status, or whose document fails to parse, leaves the tracking state and
the first-run flag unchanged, emits nothing, sleeps the fixed 30-second
backoff, and the loop goes on processing subsequent cycles. -/
theorem failed_cycle_frame (b : Bool) (seen : List GoStr) (f : HTTPResult)
    (rest : List HTTPResult)
    (h : (∃ m, f = .transportError m) ∨
         (∃ c body, f = .response c body ∧ (c < 200 ∨ 300 ≤ c)) ∨
         (∃ c, f = .response c (.content .malformed))) :
    pollStep b seen f = { seen := seen, firstRun := b, emitted := [], sleepSeconds := 30 } ∧
    pollRun b seen (f :: rest) = [] :: pollRun b seen rest := by
  have h1 : pollStep b seen f =
      { seen := seen, firstRun := b, emitted := [], sleepSeconds := 30 } := by
    rcases h with ⟨m, rfl⟩ | ⟨c, body, rfl, hc⟩ | ⟨c, rfl⟩
    · simp [pollStep, fetchFeed]
    · have hne : c ≠ 200 := by omega
      simp [pollStep, fetchFeed, hne]
    · by_cases hc : c = 200 <;> simp [pollStep, fetchFeed, hc]
  refine ⟨h1, ?_⟩
  simp [pollRun, h1]

theorem failed_cycle_frame_witness :
    pollStep true [] (.response 404 (.content (.wellFormed sampleRSS)))
      = { seen := [], firstRun := true, emitted := [], sleepSeconds := 30 } ∧
    pollRun true [] (.response 404 (.content (.wellFormed sampleRSS)) :: [sampleFetch])
      = [] :: pollRun true [] [sampleFetch] :=
  failed_cycle_frame true [] _ [sampleFetch]
    (Or.inr (Or.inl ⟨404, _, rfl, by omega⟩))

/-- C10: within a single cycle, the identities of the emitted items are
pairwise distinct — an identity is inserted into the tracking state
before its item is emitted, so a later item of the same document with
the same identity is skipped. -/
theorem no_duplicate_identity_emitted (b : Bool) (seen : List GoStr) (f : HTTPResult) :
    ((pollStep b seen f).emitted.map getItemID).Nodup := by
  match hf : fetchFeed f with
  | .error e => simp [pollStep, hf]
  | .ok rss => simp only [pollStep, hf]; exact reconcile_emitted_nodup b _ seen

/-- Models strings.HasPrefix from the Go standard library. -/
def hasPre : GoStr → GoStr → Bool
  | _, [] => true
  | [], _ :: _ => false
  | c :: s, d :: p => (c == d) && hasPre s p

/-- Models strings.TrimPrefix from the Go standard library. -/
def dropPre (s p : GoStr) : GoStr :=
  if hasPre s p then s.drop p.length else s

/-- Whitespace predicate of strings.TrimSpace (unicode.IsSpace),
restricted to the ASCII space characters. -/
def isSpaceGo (c : Char) : Bool :=
  c = ' ' ∨ c = '\t' ∨ c = '\n' ∨ c = '\r' ∨ c = '\x0b' ∨ c = '\x0c'

/-- Models strings.TrimSpace from the Go standard library. -/
def trimSpace (s : GoStr) : GoStr :=
  ((s.dropWhile isSpaceGo).reverse.dropWhile isSpaceGo).reverse

/-- The observable outcome of the ChatGPT call inside processWithOpenAI
(main.go lines 663-774): either one of the failure branches is taken
(missing OPENAI_API_KEY, prompt-template failure, request marshalling or
construction failure, transport failure, non-200 status, body read
failure, JSON parse failure, empty choices array), or a reply string is
obtained from the first choice's message content. -/
inductive OpenAIOutcome where
  | missingCredential
  | promptError
  | marshalError
  | requestError
  | transportError
  | httpError (statusCode : Nat)
  | readError
  | parseError
  | noChoices
  | reply (response : GoStr)
deriving DecidableEq

/-- processWithOpenAI (main.go lines 663-774): every failure branch
returns the original content with the keep flag true; a reply with the
NOT_RELEVANT marker suppresses the entry (empty content, keep flag
false); a reply with the RELEVANT: marker replaces the content by the
trimmed remainder; any other reply keeps the original content. -/
def processWithOpenAI (content : GoStr) (o : OpenAIOutcome) : GoStr × Bool :=
  match o with
  | .missingCredential => (content, true)
  | .promptError => (content, true)
  | .marshalError => (content, true)
  | .requestError => (content, true)
  | .transportError => (content, true)
  | .httpError _ => (content, true)
  | .readError => (content, true)
  | .parseError => (content, true)
  | .noChoices => (content, true)
  | .reply response =>
    if hasPre response "NOT_RELEVANT".toList then ([], false)
    else if hasPre response "RELEVANT:".toList then
      (trimSpace (dropPre response "RELEVANT:".toList), true)
    else (content, true)

theorem hasPre_relevant_not_notRelevant (r : GoStr)
    (h : hasPre r "RELEVANT:".toList = true) :
    hasPre r "NOT_RELEVANT".toList = false := by
  match r with
  | [] => simp [hasPre] at h
  | c :: s =>
    simp only [String.toList, hasPre, Bool.and_eq_true, beq_iff_eq] at h
    obtain ⟨rfl, -⟩ := h
    simp [hasPre]

/-- C4: the relevance step classifies the reply by its marker: a reply
with the NOT_RELEVANT marker suppresses the entry; a reply with the
RELEVANT: marker replaces the content by the trimmed remainder; any
other reply shape, and every failure branch (missing credential,
transport, status, read or parse failure, empty choices), keeps the
original content with the keep flag true — the filter fails open. -/
theorem relevance_fail_open (content : GoStr) (o : OpenAIOutcome) :
    (∀ r, hasPre r "NOT_RELEVANT".toList = true →
        processWithOpenAI content (.reply r) = ([], false)) ∧
    (∀ r, hasPre r "RELEVANT:".toList = true →
        processWithOpenAI content (.reply r)
          = (trimSpace (dropPre r "RELEVANT:".toList), true)) ∧
    ((∀ r, o = .reply r → hasPre r "NOT_RELEVANT".toList = false ∧
        hasPre r "RELEVANT:".toList = false) →
      processWithOpenAI content o = (content, true)) := by
  refine ⟨fun r h => ?_, fun r h => ?_, fun h => ?_⟩
  · simp only [processWithOpenAI]
    rw [if_pos h]
  · have hn := hasPre_relevant_not_notRelevant r h
    simp only [processWithOpenAI]
    rw [if_neg (by rw [hn]; exact Bool.false_ne_true), if_pos h]
  · cases o with
    | reply r =>
      rcases h r rfl with ⟨h1, h2⟩
      simp only [processWithOpenAI]
      rw [if_neg (by rw [h1]; exact Bool.false_ne_true),
        if_neg (by rw [h2]; exact Bool.false_ne_true)]
    | missingCredential => rfl
    | promptError => rfl
    | marshalError => rfl
    | requestError => rfl
    | transportError => rfl
    | httpError c => rfl
    | readError => rfl
    | parseError => rfl
    | noChoices => rfl

theorem relevance_fail_open_witness :
    processWithOpenAI "orig".toList (.reply "NOT_RELEVANT".toList) = ([], false) ∧
    processWithOpenAI "orig".toList (.reply "RELEVANT: foo".toList) = ("foo".toList, true) ∧
    processWithOpenAI "orig".toList .transportError = ("orig".toList, true) := by
  refine ⟨(relevance_fail_open "orig".toList .transportError).1 _ (by decide),
          ((relevance_fail_open "orig".toList .transportError).2.1 _ (by decide)).trans
            (by decide),
          (relevance_fail_open "orig".toList .transportError).2.2 (fun r hr => by cases hr)⟩

/-- ASCII lowercase conversion of one character, modelling
strings.ToLower for ASCII input (all charset labels of interest are
ASCII). -/
def toLowerCh (c : Char) : Char :=
  if 'A' ≤ c ∧ c ≤ 'Z' then Char.ofNat (c.toNat + 32) else c

/-- Models strings.ToLower from the Go standard library (ASCII part). -/
def toLowerG (s : GoStr) : GoStr := s.map toLowerCh

/-- The decoders of the golang.org/x/text/encoding/charmap package used
by charsetReader. -/
inductive Charmap where
  | windows1251
  | windows1252
  | iso8859_1
  | iso8859_2
  | iso8859_5
  | iso8859_15
  | koi8r
  | koi8u
deriving DecidableEq

/-- Result of charsetReader: the input reader unchanged, a decoding
reader for one of the supported charmaps, or the error naming the
unsupported (lowercased) label. -/
inductive CharsetResult where
  | unchanged
  | transformed (d : Charmap)
  | unsupported (label : GoStr)
deriving DecidableEq

/-- The switch statement of charsetReader (main.go lines 462-483),
applied to the already-lowercased label. -/
def charsetLookup (c : GoStr) : CharsetResult :=
  if c = "utf-8".toList ∨ c = [] then .unchanged
  else if c = "windows-1251".toList ∨ c = "cp1251".toList then .transformed .windows1251
  else if c = "windows-1252".toList ∨ c = "cp1252".toList then .transformed .windows1252
  else if c = "iso-8859-1".toList ∨ c = "latin1".toList then .transformed .iso8859_1
  else if c = "iso-8859-2".toList ∨ c = "latin2".toList then .transformed .iso8859_2
  else if c = "iso-8859-5".toList then .transformed .iso8859_5
  else if c = "iso-8859-15".toList then .transformed .iso8859_15
  else if c = "koi8-r".toList then .transformed .koi8r
  else if c = "koi8-u".toList then .transformed .koi8u
  else .unsupported c

/-- charsetReader (main.go lines 456-484): lowercase the label, then
switch on it. -/
def charsetReader (charset : GoStr) : CharsetResult :=
  charsetLookup (toLowerG charset)

/-- The labels of the allow-list of legacy 8-bit and Cyrillic encodings
(main.go lines 465-480). -/
def charsetAllowList : List GoStr :=
  ["windows-1251", "cp1251", "windows-1252", "cp1252", "iso-8859-1", "latin1",
   "iso-8859-2", "latin2", "iso-8859-5", "iso-8859-15", "koi8-r", "koi8-u"].map
    String.toList

/-- C5: charset handling is case-insensitive (the result depends only on
the lowercased label); the utf-8 and empty labels pass the stream
through unchanged; every label of the fixed allow-list yields a decoding
reader; every other label yields the unsupported-charset error carrying
the lowercased label — no encoding is ever guessed. -/
theorem charsetReader_allowlist_or_error (a b cs : GoStr)
    (hab : toLowerG a = toLowerG b)
    (hu : toLowerG cs = "utf-8".toList ∨ toLowerG cs = []) :
    charsetReader a = charsetReader b ∧
    charsetReader cs = .unchanged ∧
    (∀ s, toLowerG s ∈ charsetAllowList → ∃ d, charsetReader s = .transformed d) ∧
    (∀ s, toLowerG s ≠ "utf-8".toList → toLowerG s ≠ [] →
      toLowerG s ∉ charsetAllowList → charsetReader s = .unsupported (toLowerG s)) := by
  refine ⟨by rw [charsetReader, hab, charsetReader], ?_, fun s hs => ?_, fun s h1 h2 h3 => ?_⟩
  · rw [charsetReader, charsetLookup, if_pos hu]
  · rw [charsetReader]
    simp only [charsetAllowList, List.mem_map, List.mem_cons] at hs
    rcases hs with ⟨l, hl, heq⟩
    rw [← heq]
    rcases hl with rfl | rfl | rfl | rfl | rfl | rfl | rfl | rfl | rfl | rfl | rfl | rfl | h
    · exact ⟨.windows1251, by decide⟩
    · exact ⟨.windows1251, by decide⟩
    · exact ⟨.windows1252, by decide⟩
    · exact ⟨.windows1252, by decide⟩
    · exact ⟨.iso8859_1, by decide⟩
    · exact ⟨.iso8859_1, by decide⟩
    · exact ⟨.iso8859_2, by decide⟩
    · exact ⟨.iso8859_2, by decide⟩
    · exact ⟨.iso8859_5, by decide⟩
    · exact ⟨.iso8859_15, by decide⟩
    · exact ⟨.koi8r, by decide⟩
    · exact ⟨.koi8u, by decide⟩
    · simp at h
  · have hm : ∀ l ∈ charsetAllowList, toLowerG s ≠ l := fun l hl he => h3 (he ▸ hl)
    simp only [charsetAllowList, List.map_cons, List.map_nil, List.mem_cons,
      List.not_mem_nil, forall_eq_or_imp, forall_eq, or_false] at hm
    obtain ⟨m1, m2, m3, m4, m5, m6, m7, m8, m9, m10, m11, m12⟩ := hm
    rw [charsetReader, charsetLookup]
    rw [if_neg (by tauto), if_neg (by tauto), if_neg (by tauto), if_neg (by tauto),
      if_neg (by tauto), if_neg m9, if_neg m10, if_neg m11, if_neg m12]

theorem charsetReader_allowlist_or_error_witness :
    charsetReader "UTF-8".toList = charsetReader "utf-8".toList ∧
    charsetReader "UTF-8".toList = .unchanged ∧
    (∃ d, charsetReader "KOI8-R".toList = .transformed d) ∧
    charsetReader "utf-16".toList = .unsupported "utf-16".toList := by
  have h := charsetReader_allowlist_or_error "UTF-8".toList "utf-8".toList "UTF-8".toList
    (by decide) (by decide)
  exact ⟨h.1, h.2.1, h.2.2.1 "KOI8-R".toList (by decide),
    h.2.2.2 "utf-16".toList (by decide) (by decide) (by decide)⟩

/-- The final step of extractContent's remote path (main.go lines
561-569): the text of the first Diffbot article object, truncated to
maxLength characters plus an ellipsis when it is longer than
maxLength. -/
def extractContentText (maxLength : Nat) (text : GoStr) : GoStr :=
  if text.length > maxLength then text.take maxLength ++ ['.', '.', '.'] else text

/-- The final step of extractMainText's local-heuristic path (main.go
lines 636-640): the cleaned-up page text, truncated to maxLength
characters plus an ellipsis when it is longer than maxLength. -/
def extractMainTextFinal (maxLength : Nat) (text : GoStr) : GoStr :=
  if text.length > maxLength then text.take maxLength ++ ['.', '.', '.'] else text

/-- C6: on both extraction paths, text longer than the configured
maximum becomes exactly the first maxLength characters followed by the
three-character ellipsis marker, and text at or below the maximum is
returned unchanged. -/
theorem extraction_truncates_to_max (maxLength : Nat) (text : GoStr) :
    (text.length > maxLength →
      extractContentText maxLength text = text.take maxLength ++ ['.', '.', '.'] ∧
      extractMainTextFinal maxLength text = text.take maxLength ++ ['.', '.', '.'] ∧
      (text.take maxLength).length = maxLength ∧
      (extractContentText maxLength text).length = maxLength + 3) ∧
    (text.length ≤ maxLength →
      extractContentText maxLength text = text ∧
      extractMainTextFinal maxLength text = text) := by
  constructor
  · intro h
    have htake : (text.take maxLength).length = maxLength :=
      text.length_take_of_le (le_of_lt h)
    refine ⟨by rw [extractContentText, if_pos h], by rw [extractMainTextFinal, if_pos h],
      htake, ?_⟩
    rw [extractContentText, if_pos h, List.length_append, htake]
    rfl
  · intro h
    have hn : ¬ text.length > maxLength := not_lt.mpr h
    exact ⟨by rw [extractContentText, if_neg hn], by rw [extractMainTextFinal, if_neg hn]⟩

theorem extraction_truncates_to_max_witness :
    ("abcdef".toList.length > 4 ∧
      extractContentText 4 "abcdef".toList = "abcd...".toList ∧
      extractMainTextFinal 4 "abcdef".toList = "abcd...".toList) ∧
    ("abcd".toList.length ≤ 4 ∧ extractContentText 4 "abcd".toList = "abcd".toList) := by
  have h1 := (extraction_truncates_to_max 4 "abcdef".toList).1 (by decide)
  have h2 := (extraction_truncates_to_max 4 "abcd".toList).2 (by decide)
  exact ⟨⟨by decide, h1.1.trans (by decide), h1.2.1.trans (by decide)⟩, ⟨by decide, h2.1⟩⟩

/-- Characters of the authority part of a URL: everything up to the
first slash. -/
def hostPart : GoStr → GoStr
  | [] => []
  | c :: rest => if c = '/' then [] else c :: hostPart rest

/-- Drops everything up to and including the first "://" of a URL,
returning none when there is no scheme separator. -/
def afterScheme : GoStr → Option GoStr
  | [] => none
  | ':' :: '/' :: '/' :: rest => some rest
  | _ :: rest => afterScheme rest

/-- hostname (main.go lines 776-782), which returns url.Parse(u).Host.
Modelled from the net/url behaviour on feed URLs: for an absolute URL
the host is the authority between "://" and the next slash; a URL
without "://" has an empty host.  (url.Parse only errors on control
characters, so the error branch returning the raw URL is not
modelled.) -/
def hostname (feedURL : GoStr) : GoStr :=
  match afterScheme feedURL with
  | some rest => hostPart rest
  | none => []

/-- Models strings.Count(s, sub) for a one-character substring sub: the
number of occurrences of that character. -/
def countChar (c : Char) (s : GoStr) : Nat := s.countP (· == c)

/-- The bracketed suffix of the compact layout (main.go lines 874-884):
when the authored toggle is on and the channel title is non-empty, the
suffix shows the hostname when the title has more than two spaces and
the title itself otherwise; no suffix is produced otherwise. -/
def compactSuffix (authored : Bool) (channelTitle feedURL : GoStr) : Option GoStr :=
  if authored ∧ channelTitle ≠ [] then
    some (if countChar ' ' channelTitle > 2 then hostname feedURL else channelTitle)
  else none

/-- The number of space-separated words of a string: the number of
maximal space-free non-empty runs.  Used only to state the claim about
multi-word channel titles. -/
def spaceWords (s : GoStr) : Nat :=
  ((s.splitOnP (· == ' ')).filter (· ≠ [])).length

/-- C7 counterexample: the three-word channel title "a b c" has more
than two space-separated words, yet the compact suffix shows the title,
not the feed URL's hostname, because the code compares the number of
space characters (two here) with two. -/
theorem compactSuffix_three_word_title_cex :
    spaceWords "a b c".toList > 2 ∧
    hostname "http://example.com/rss".toList = "example.com".toList ∧
    compactSuffix true "a b c".toList "http://example.com/rss".toList
      = some "a b c".toList ∧
    compactSuffix true "a b c".toList "http://example.com/rss".toList
      ≠ some (hostname "http://example.com/rss".toList) := by
  refine ⟨by decide, by decide, by decide, ?_⟩
  intro h
  rw [show hostname "http://example.com/rss".toList = "example.com".toList from by decide]
    at h
  exact absurd h (by decide)

/-- C7 as amended: in the compact layout with the channel-name toggle
on, for every non-empty channel title, the bracketed suffix shows the
feed URL's hostname when the title contains more than two space
characters, and the channel title otherwise. -/
theorem compactSuffix_spaces_heuristic (channelTitle feedURL : GoStr)
    (hne : channelTitle ≠ []) :
    (countChar ' ' channelTitle > 2 →
      compactSuffix true channelTitle feedURL = some (hostname feedURL)) ∧
    (¬ countChar ' ' channelTitle > 2 →
      compactSuffix true channelTitle feedURL = some channelTitle) := by
  constructor
  · intro h
    rw [compactSuffix, if_pos ⟨rfl, hne⟩, if_pos h]
  · intro h
    rw [compactSuffix, if_pos ⟨rfl, hne⟩, if_neg h]

theorem compactSuffix_spaces_heuristic_witness :
    compactSuffix true "A B C D".toList "http://example.com/rss".toList
      = some "example.com".toList ∧
    compactSuffix true "a b c".toList "http://example.com/rss".toList
      = some "a b c".toList := by
  have h1 := (compactSuffix_spaces_heuristic "A B C D".toList
    "http://example.com/rss".toList (by decide)).1 (by decide)
  have h2 := (compactSuffix_spaces_heuristic "a b c".toList
    "http://example.com/rss".toList (by decide)).2 (by decide)
  exact ⟨h1.trans (by decide), h2⟩

/-- Decimal digit test (isDigit of the Go time package). -/
def isDigitCh (c : Char) : Bool := '0' ≤ c ∧ c ≤ '9'

/-- Numeric value of a decimal digit character. -/
def digitVal (c : Char) : Nat := c.toNat - '0'.toNat

/-- Models getnum of the Go time package: reads a one- or two-digit
number (exactly two digits when fixed is true). -/
def getnum (fixed : Bool) : GoStr → Option (Nat × GoStr)
  | [] => none
  | c :: rest =>
    if isDigitCh c then
      match rest with
      | d :: rest2 =>
        if isDigitCh d then some (10 * digitVal c + digitVal d, rest2)
        else if fixed then none else some (digitVal c, rest)
      | [] => if fixed then none else some (digitVal c, [])
    else none

/-- Reads exactly four decimal digits (the 2006 layout element). -/
def getnum4 : GoStr → Option (Nat × GoStr)
  | a :: b :: c :: d :: rest =>
    if isDigitCh a ∧ isDigitCh b ∧ isDigitCh c ∧ isDigitCh d then
      some (1000 * digitVal a + 100 * digitVal b + 10 * digitVal c + digitVal d, rest)
    else none
  | _ => none

/-- Case-insensitive comparison of two equal-length strings (the match
helper of the Go time package, ASCII case folding). -/
def matchCI : GoStr → GoStr → Bool
  | [], [] => true
  | c :: s, d :: p => (toLowerCh c == toLowerCh d) && matchCI s p
  | _, _ => false

/-- Models lookup of the Go time package: finds the first name of the
list that the value starts with (case-insensitively) and returns its
index together with the remaining value. -/
def lookupName : List GoStr → Nat → GoStr → Option (Nat × GoStr)
  | [], _, _ => none
  | n :: ns, i, v =>
    if matchCI (v.take n.length) n then some (i, v.drop n.length)
    else lookupName ns (i + 1) v

/-- shortDayNames of the Go time package. -/
def shortDayNames : List GoStr :=
  ["Sun", "Mon", "Tue", "Wed", "Thu", "Fri", "Sat"].map String.toList

/-- shortMonthNames of the Go time package. -/
def shortMonthNames : List GoStr :=
  ["Jan", "Feb", "Mar", "Apr", "May", "Jun", "Jul", "Aug", "Sep", "Oct", "Nov",
   "Dec"].map String.toList

/-- Upper-case ASCII letter test. -/
def isUpperCh (c : Char) : Bool := 'A' ≤ c ∧ c ≤ 'Z'

/-- Number of leading upper-case letters of a string. -/
def leadUppers : GoStr → Nat
  | [] => 0
  | c :: rest => if isUpperCh c then leadUppers rest + 1 else 0

/-- Models parseTimeZone of the Go time package: the length of the
leading time-zone abbreviation (ChST/MeST, GMT, or three to five
upper-case letters with the usual trailing-T constraints), or none.
The hour-offset extension of GMT and the signed numeric offsets are
not modelled; the date claims do not exercise them. -/
def parseTimeZone (v : GoStr) : Option Nat :=
  if v.length < 3 then none
  else if v.take 4 = "ChST".toList ∨ v.take 4 = "MeST".toList then some 4
  else if v.take 3 = "GMT".toList then some 3
  else
    match min (leadUppers v) 6 with
    | 3 => some 3
    | 4 => if v.getD 3 ' ' = 'T' ∨ v.take 4 = "WITA".toList then some 4 else none
    | 5 => if v.getD 4 ' ' = 'T' then some 5 else none
    | _ => none

/-- Parses a numeric time-zone of the -0700 layout element: a sign and
four digits. -/
def parseNumTZ : GoStr → Option GoStr
  | s :: a :: b :: c :: d :: rest =>
    if (s = '+' ∨ s = '-') ∧ isDigitCh a ∧ isDigitCh b ∧ isDigitCh c ∧ isDigitCh d then
      some rest
    else none
  | _ => none

/-- Parses a time-zone of the Z07:00 layout element: either the letter
Z, or a sign, two digits, a colon and two digits. -/
def parseISOColonTZ : GoStr → Option GoStr
  | 'Z' :: rest => some rest
  | si :: a :: b :: ':' :: c :: d :: rest =>
    if (si = '+' ∨ si = '-') ∧ isDigitCh a ∧ isDigitCh b ∧ isDigitCh c ∧ isDigitCh d then
      some rest
    else none
  | _ => none

/-- The date and time fields accumulated by Parse of the Go time
package, with Parse's defaults (January 1 of year 0, midnight). -/
structure DateFields where
  year : Nat := 0
  month : Nat := 1
  day : Nat := 1
  hour : Nat := 0
  minute : Nat := 0
  second : Nat := 0
deriving DecidableEq, Repr

/-- The layout elements occurring in the nine layout strings used by
parseDate (main.go lines 490-500), as classified by nextStdChunk of the
Go time package. -/
inductive Tok where
  | lit (c : Char)
  | weekDayName
  | monthName
  | longYear
  | shortYear
  | day
  | zeroDay
  | zeroMonth
  | hour
  | zeroMinute
  | zeroSecond
  | tzAbbr
  | numTZ
  | isoColonTZ
deriving DecidableEq

/-- Parses one layout element from the front of the value, as Parse of
the Go time package does; parsed week-day names are consumed but never
validated against the date. -/
def runTok (fs : DateFields) (v : GoStr) : Tok → Option (DateFields × GoStr)
  | .lit c =>
    match v with
    | d :: rest => if d = c then some (fs, rest) else none
    | [] => none
  | .weekDayName => (lookupName shortDayNames 0 v).map (fun p => (fs, p.2))
  | .monthName =>
    (lookupName shortMonthNames 0 v).map (fun p => ({ fs with month := p.1 + 1 }, p.2))
  | .longYear => (getnum4 v).map (fun p => ({ fs with year := p.1 }, p.2))
  | .shortYear =>
    (getnum true v).map (fun p =>
      ({ fs with year := if p.1 ≥ 69 then p.1 + 1900 else p.1 + 2000 }, p.2))
  | .day => (getnum false v).map (fun p => ({ fs with day := p.1 }, p.2))
  | .zeroDay => (getnum true v).map (fun p => ({ fs with day := p.1 }, p.2))
  | .zeroMonth => (getnum true v).map (fun p => ({ fs with month := p.1 }, p.2))
  | .hour => (getnum false v).map (fun p => ({ fs with hour := p.1 }, p.2))
  | .zeroMinute => (getnum true v).map (fun p => ({ fs with minute := p.1 }, p.2))
  | .zeroSecond => (getnum true v).map (fun p => ({ fs with second := p.1 }, p.2))
  | .tzAbbr =>
    if v.take 3 = "UTC".toList then some (fs, v.drop 3)
    else (parseTimeZone v).map (fun n => (fs, v.drop n))
  | .numTZ => (parseNumTZ v).map (fun rest => (fs, rest))
  | .isoColonTZ => (parseISOColonTZ v).map (fun rest => (fs, rest))

/-- Runs a whole layout over a value; any text left over after the last
layout element is an error, as in Parse of the Go time package. -/
def runLayout : List Tok → DateFields → GoStr → Option DateFields
  | [], fs, v => if v = [] then some fs else none
  | t :: ts, fs, v =>
    match runTok fs v t with
    | none => none
    | some (fs2, v2) => runLayout ts fs2 v2

/-- Leap-year rule of the Go time package. -/
def isLeapYear (y : Nat) : Bool :=
  y % 4 = 0 ∧ (y % 100 ≠ 0 ∨ y % 400 = 0)

/-- daysIn of the Go time package: the number of days of a month. -/
def daysIn (m y : Nat) : Nat :=
  if m = 2 then (if isLeapYear y then 29 else 28)
  else if m = 4 ∨ m = 6 ∨ m = 9 ∨ m = 11 then 30 else 31

/-- The range checks Parse of the Go time package performs after
consuming the layout: month, day-of-month, hour, minute and second must
be in range. -/
def validFields (fs : DateFields) : Bool :=
  decide (1 ≤ fs.month ∧ fs.month ≤ 12 ∧ 1 ≤ fs.day ∧ fs.day ≤ daysIn fs.month fs.year ∧
    fs.hour < 24 ∧ fs.minute < 60 ∧ fs.second < 60)

/-- Models time.Parse(layout, value) for the layouts used by parseDate,
keeping only the fields that matter to the DD-MM-YYYY output. -/
def timeParse (layout : List Tok) (v : GoStr) : Option DateFields :=
  match runLayout layout {} v with
  | none => none
  | some fs => if validFields fs then some fs else none

/-- Layout time.RFC1123 = "Mon, 02 Jan 2006 15:04:05 MST". -/
def rfc1123Toks : List Tok :=
  [.weekDayName, .lit ',', .lit ' ', .zeroDay, .lit ' ', .monthName, .lit ' ', .longYear,
   .lit ' ', .hour, .lit ':', .zeroMinute, .lit ':', .zeroSecond, .lit ' ', .tzAbbr]

/-- Layout time.RFC1123Z = "Mon, 02 Jan 2006 15:04:05 -0700". -/
def rfc1123zToks : List Tok :=
  [.weekDayName, .lit ',', .lit ' ', .zeroDay, .lit ' ', .monthName, .lit ' ', .longYear,
   .lit ' ', .hour, .lit ':', .zeroMinute, .lit ':', .zeroSecond, .lit ' ', .numTZ]

/-- Layout time.RFC822 = "02 Jan 06 15:04 MST". -/
def rfc822Toks : List Tok :=
  [.zeroDay, .lit ' ', .monthName, .lit ' ', .shortYear, .lit ' ', .hour, .lit ':',
   .zeroMinute, .lit ' ', .tzAbbr]

/-- Layout time.RFC822Z = "02 Jan 06 15:04 -0700". -/
def rfc822zToks : List Tok :=
  [.zeroDay, .lit ' ', .monthName, .lit ' ', .shortYear, .lit ' ', .hour, .lit ':',
   .zeroMinute, .lit ' ', .numTZ]

/-- Layout "2006-01-02T15:04:05Z07:00". -/
def isoColonToks : List Tok :=
  [.longYear, .lit '-', .zeroMonth, .lit '-', .zeroDay, .lit 'T', .hour, .lit ':',
   .zeroMinute, .lit ':', .zeroSecond, .isoColonTZ]

/-- Layout "2006-01-02T15:04:05Z"; the trailing Z is a literal for
nextStdChunk of the Go time package. -/
def isoZToks : List Tok :=
  [.longYear, .lit '-', .zeroMonth, .lit '-', .zeroDay, .lit 'T', .hour, .lit ':',
   .zeroMinute, .lit ':', .zeroSecond, .lit 'Z']

/-- Layout "2006-01-02 15:04:05". -/
def isoSpaceToks : List Tok :=
  [.longYear, .lit '-', .zeroMonth, .lit '-', .zeroDay, .lit ' ', .hour, .lit ':',
   .zeroMinute, .lit ':', .zeroSecond]

/-- Layout "Mon, 2 Jan 2006 15:04:05 MST". -/
def monDayToks : List Tok :=
  [.weekDayName, .lit ',', .lit ' ', .day, .lit ' ', .monthName, .lit ' ', .longYear,
   .lit ' ', .hour, .lit ':', .zeroMinute, .lit ':', .zeroSecond, .lit ' ', .tzAbbr]

/-- Layout "Mon, 2 Jan 2006 15:04:05 -0700". -/
def monDayzToks : List Tok :=
  [.weekDayName, .lit ',', .lit ' ', .day, .lit ' ', .monthName, .lit ' ', .longYear,
   .lit ' ', .hour, .lit ':', .zeroMinute, .lit ':', .zeroSecond, .lit ' ', .numTZ]

/-- The ordered list of layouts tried by parseDate
(main.go lines 490-500). -/
def dateLayouts : List (List Tok) :=
  [rfc1123Toks, rfc1123zToks, rfc822Toks, rfc822zToks, isoColonToks, isoZToks,
   isoSpaceToks, monDayToks, monDayzToks]

/-- The first layout of the ordered list that parses the value wins. -/
def firstMatch : List (List Tok) → GoStr → Option DateFields
  | [], _ => none
  | L :: Ls, v =>
    match timeParse L v with
    | some fs => some fs
    | none => firstMatch Ls v

/-- Decimal digits of a natural number. -/
def natDigits (n : Nat) : GoStr := (toString n).toList

/-- Zero-pads a natural number to a width, as appendInt of the Go time
package does when formatting. -/
def padNat (w n : Nat) : GoStr :=
  List.replicate (w - (natDigits n).length) '0' ++ natDigits n

/-- Formatting with layout "02-01-2006": day, month and year in
DD-MM-YYYY form. -/
def formatDMY (fs : DateFields) : GoStr :=
  padNat 2 fs.day ++ ['-'] ++ padNat 2 fs.month ++ ['-'] ++ padNat 4 fs.year

/-- parseDate (main.go lines 486-507): the empty string maps to the
empty string; otherwise the layouts are tried in order and the first
match is formatted as DD-MM-YYYY; a string no layout matches is
returned unchanged. -/
def parseDate (pubDate : GoStr) : GoStr :=
  if pubDate = [] then []
  else
    match firstMatch dateLayouts pubDate with
    | some fs => formatDMY fs
    | none => pubDate

theorem firstMatch_of_all_none (Ls : List (List Tok)) (s : GoStr)
    (h : ∀ L ∈ Ls, timeParse L s = none) : firstMatch Ls s = none := by
  induction Ls with
  | nil => rfl
  | cons L rest ih =>
    have hL := h L (List.mem_cons_self _ _)
    simp only [firstMatch, hL]
    exact ih (fun L2 hL2 => h L2 (List.mem_cons_of_mem _ hL2))

/-- C8: parseDate maps "Mon, 15 Mar 2023 10:30:00 GMT" to "15-03-2023"
(DD-MM-YYYY); it maps the empty string to the empty string; a string
matched by the first layout of the ordered list is formatted from that
match; and a string matched by no layout is returned unchanged. -/
theorem parseDate_normalizes (s u : GoStr) (fs : DateFields)
    (hs : s ≠ []) (hfs : timeParse rfc1123Toks s = some fs)
    (hu : ∀ L ∈ dateLayouts, timeParse L u = none) :
    parseDate "Mon, 15 Mar 2023 10:30:00 GMT".toList = "15-03-2023".toList ∧
    parseDate [] = [] ∧
    parseDate s = formatDMY fs ∧
    parseDate u = u := by
  refine ⟨by decide, rfl, ?_, ?_⟩
  · rw [parseDate, if_neg hs]
    simp only [dateLayouts, firstMatch, hfs]
  · by_cases hne : u = []
    · subst hne; rfl
    · rw [parseDate, if_neg hne, firstMatch_of_all_none _ _ hu]

theorem parseDate_normalizes_witness :
    parseDate "Mon, 15 Mar 2023 10:30:00 GMT".toList = "15-03-2023".toList ∧
    parseDate "yesterday evening".toList = "yesterday evening".toList := by
  have h := parseDate_normalizes "Mon, 15 Mar 2023 10:30:00 GMT".toList
    "yesterday evening".toList
    { year := 2023, month := 3, day := 15, hour := 10, minute := 30, second := 0 }
    (by decide) (by decide) (by decide)
  exact ⟨h.1, h.2.2.2⟩

end Rssp
